import Mathlib

/-! Shallow embedding of the poverty-dashboard data pipeline from
`streamlit_app_prototipo_pobreza.py`: text normalization (`normalize_str`),
column resolution (`match_columns` via the `COL_SYNONYMS` table), dataframe
validation (`validate_dataframe`), national-total aggregation (`peru_total`)
and the gap-to-target computation of the COMPARADOR tab, together with proofs
of the specification's testable properties. A dataframe is modelled
column-wise, as pandas stores it: an ordered association list from column
name to the list of cells of that column. -/

namespace PobrezaPipeline

/-- A spreadsheet cell: a numeric value (ints, floats and numeric strings are
all represented by their rational value, which is what `pd.to_numeric`
produces), a non-numeric text entry, or a missing value (NaN / pandas NA). -/
inductive Cell where
  | num (q : ℚ)
  | text (s : String)
  | null
deriving DecidableEq

/-- A dataframe: ordered list of (column name, column cells), as produced by
`pd.read_excel`. -/
abbrev Df := List (String × List Cell)

/-- Python whitespace stripped by `str.strip`. -/
def isWs (c : Char) : Bool :=
  c = ' ' || c = '\t' || c = '\n' || c = '\r' || c = '\x0b' || c = '\x0c'

/-- `str.lower` restricted to the alphabet the headers use: ASCII letters plus
the accented Spanish letters (the model of Unicode lower-casing on the
characters that can occur in this app's headers). -/
def lowerSp (c : Char) : Char :=
  if c = 'Á' then 'á' else if c = 'É' then 'é' else if c = 'Í' then 'í'
  else if c = 'Ó' then 'ó' else if c = 'Ú' then 'ú' else if c = 'Ñ' then 'ñ'
  else if c = 'Ü' then 'ü' else c.toLower

/-- NFD decomposition followed by removal of combining marks, restricted to
the lower-case Spanish letters (all that can remain after `lowerSp`). -/
def stripMark (c : Char) : Char :=
  if c = 'á' then 'a' else if c = 'é' then 'e' else if c = 'í' then 'i'
  else if c = 'ó' then 'o' else if c = 'ú' then 'u' else if c = 'ñ' then 'n'
  else if c = 'ü' then 'u' else c

/-- `normalize_str`: trim, lower-case, strip accents. -/
def normalize_str (s : String) : String :=
  String.mk ((((s.toList.dropWhile isWs).reverse.dropWhile isWs).reverse).map
    (fun c => stripMark (lowerSp c)))

/-- `COL_SYNONYMS`: accepted header synonyms per canonical field, in
declaration order. -/
def COL_SYNONYMS : List (String × List String) :=
  [("region", ["region", "nombre", "departamento", "dpto", "ambito"]),
   ("year",   ["anio", "ano", "año", "year", "periodo"]),
   ("nvpov",  ["nvpov", "no pobres no vulnerables", "no_pobres_no_vulnerables"]),
   ("vpov",   ["vpov", "no pobres vulnerables", "no_pobres_vulnerables"]),
   ("pov",    ["pov", "pobres", "pobreza", "num pobrez"]),
   ("epov",   ["epov", "pobreza extrema", "extrema_pobreza"])]

/-- `REQUIRED_COLS`, in declaration order. -/
def REQUIRED_COLS : List String := ["region", "year", "nvpov", "vpov", "pov", "epov"]

/-- The numeric count columns coerced by the validator. -/
def NUM_COLS : List String := ["nvpov", "vpov", "pov", "epov"]

/-- The dict comprehension `{normalize_str(c): c for c in df.columns}`,
modelled by its lookup behaviour: each new binding is prepended, so a lookup
sees the binding of the last column with a given normalized name, exactly as
a Python dict whose later duplicate keys overwrite earlier ones. -/
def colsNorm (cols : List String) : List (String × String) :=
  cols.foldl (fun d c => (normalize_str c, c) :: d) []

/-- `cols_norm[s]` / `s in cols_norm`. -/
def lookupNorm (cols : List String) (k : String) : Option String :=
  ((colsNorm cols).find? (fun p => p.1 = k)).map (fun p => p.2)

/-- The inner loop of `match_columns`: try each synonym in declaration order,
stop at the first one present among the normalized headers. -/
def findSyn (cols : List String) : List String → Option String
  | [] => none
  | s :: rest =>
    match lookupNorm cols s with
    | some c => some c
    | none => findSyn cols rest

/-- The `mapping` built by `match_columns`: for each canonical field in
declaration order, the raw column found for it (if any), as a (raw, target)
pair. -/
def buildMapping (cols : List String) : List (String × String) :=
  COL_SYNONYMS.filterMap (fun p => (findSyn cols p.2).map (fun c => (c, p.1)))

/-- `match_columns`: rename the mapped raw columns to their canonical names
(`df.rename(columns=mapping)`); unmapped columns are passed through. -/
def match_columns (df : Df) : Df :=
  let m := buildMapping (df.map (fun p => p.1))
  df.map (fun p =>
    match (m.find? (fun q => q.1 = p.1)).map (fun q => q.2) with
    | some t => (t, p.2)
    | none => p)

/-- Structured validation messages (the `msgs` list of `validate_dataframe`).
`missingCol c` is the message for a missing required column, `yearNotNumeric`
and `colNotNumeric c` the column-level coercion failures, `coverage` the
non-fatal 2019-2023 coverage warning. -/
inductive Msg where
  | missingCol (c : String)
  | yearNotNumeric
  | colNotNumeric (c : String)
  | coverage
deriving DecidableEq

/-- `df.any` on a column name: column presence. -/
def hasCol (df : Df) (c : String) : Bool := df.any (fun p => p.1 = c)

/-- `df[c]`: the cells of the first column named `c` (empty if absent). -/
def getCol (df : Df) (c : String) : List Cell :=
  ((df.find? (fun p => p.1 = c)).map (fun p => p.2)).getD []

/-- `df[c] = v`: replace the cells of every column named `c`, appending a new
column when absent, as a pandas column assignment does. -/
def setCol (df : Df) (c : String) (v : List Cell) : Df :=
  if df.any (fun p => p.1 = c) then
    df.map (fun p => if p.1 = c then (c, v) else p)
  else df ++ [(c, v)]

/-- `pd.to_numeric(col, errors=coerce)` on one cell: numeric values pass
through, anything else becomes a missing value. -/
def toNumeric : Cell → Cell
  | .num q => .num q
  | .text _ => .null
  | .null => .null

/-- The numeric value of a cell, when it has one. -/
def cellNum? : Cell → Option ℚ
  | .num q => some q
  | .text _ => none
  | .null => none

/-- Whether a cell holds a numeric value (a non-null entry of a coerced
column). -/
def isNumCell (c : Cell) : Bool := (cellNum? c).isSome

/-- `.astype(str)` on one cell. -/
def cellStr : Cell → Cell
  | .num q => .text (toString q)
  | .text s => .text s
  | .null => .text "nan"

/-- `pd.to_numeric(df[year], errors=coerce).astype(Int64)`: cell-wise null
tolerant coercion, failing at column level (the caught exception) when a
coerced value is not an integer. -/
def coerceYearCol (cs : List Cell) : Option (List Cell) :=
  let cs2 := cs.map toNumeric
  if cs2.all (fun c => match c with | .num q => q.den = 1 | _ => true) then some cs2
  else none

/-- The loop coercing the four count columns with `pd.to_numeric(...,
errors=coerce)` (which cannot fail at column level on a well-formed frame,
so no `colNotNumeric` message is ever produced). -/
def coerceNumCols (df : Df) : Df :=
  NUM_COLS.foldl (fun d c => setCol d c ((getCol d c).map toNumeric)) df

/-- `df[region] = df[region].astype(str)`. -/
def coerceRegion (df : Df) : Df :=
  setCol df "region" ((getCol df "region").map cellStr)

/-- The distinct non-null years of a year column, ascending:
`sorted(df[year].dropna().unique())`. -/
def yearsSorted (cs : List Cell) : List ℚ :=
  ((cs.filterMap cellNum?).dedup).insertionSort (fun a b => a ≤ b)

/-- The coverage check on the sorted distinct years: warn when the panel is
empty, its first year exceeds 2019, or its last year is below 2023. -/
def coverageMsgs (years : List ℚ) : List Msg :=
  match years.head?, years.getLast? with
  | some lo, some hi => if 2019 < lo ∨ hi < 2023 then [Msg.coverage] else []
  | _, _ => [Msg.coverage]

/-- Result of `validate_dataframe`: the `(ok, msgs)` pair it returns plus the
dataframe it mutated in place. -/
structure VResult where
  ok : Bool
  msgs : List Msg
  df : Df
deriving DecidableEq

/-- `validate_dataframe`: missing-column checks (in `REQUIRED_COLS` order),
then, only when all required columns are present, type coercion of `year`,
the four count columns and `region`, and finally the non-fatal 2019-2023
coverage warning. -/
def validate_dataframe (df0 : Df) : VResult :=
  let missing := REQUIRED_COLS.filter (fun c => !hasCol df0 c)
  if missing.isEmpty then
    match coerceYearCol (getCol df0 "year") with
    | some ys =>
      let df3 := coerceRegion (coerceNumCols (setCol df0 "year" ys))
      ⟨true, coverageMsgs (yearsSorted (getCol df3 "year")), df3⟩
    | none =>
      let df3 := coerceRegion (coerceNumCols df0)
      ⟨false, Msg.yearNotNumeric :: coverageMsgs (yearsSorted (getCol df3 "year")), df3⟩
  else ⟨false, missing.map Msg.missingCol, df0⟩

/-- One output row of the pipeline: a panel record with nullable numeric
fields (floats with NaN in the source). -/
structure Row where
  region : String
  year : Option ℚ
  nvpov : Option ℚ
  vpov : Option ℚ
  pov : Option ℚ
  epov : Option ℚ
deriving DecidableEq

/-- The sum, over the rows whose year cell equals `num y`, of the paired
value cells, nulls contributing 0 (pandas groupby-sum with `skipna`). -/
def zipSum (ys cs : List Cell) (y : ℚ) : ℚ :=
  (((ys.zip cs).filter (fun p => p.1 = Cell.num y)).map
    (fun p => (cellNum? p.2).getD 0)).sum

/-- The per-year sum of column `c` of `df`. -/
def sumYear (df : Df) (c : String) (y : ℚ) : ℚ :=
  zipSum (getCol df "year") (getCol df c) y

/-- `peru_total`: `df.groupby(year)[[nvpov,vpov,pov,epov]].sum()` with the
synthetic region label inserted: one row per distinct non-null year in
ascending order, each field the null-as-zero sum over that year's rows. -/
def peru_total (df : Df) : List Row :=
  (yearsSorted (getCol df "year")).map (fun y =>
    { region := "Perú (suma nacional)", year := some y,
      nvpov := some (sumYear df "nvpov" y), vpov := some (sumYear df "vpov" y),
      pov := some (sumYear df "pov" y), epov := some (sumYear df "epov" y) })

/-- The region label of a row, from its region cell. -/
def regionOf : Option Cell → String
  | some (.text s) => s
  | some (.num q) => toString q
  | some .null => "nan"
  | none => ""

/-- Row-wise view of a dataframe's six canonical columns, one `Row` per entry
of the year column (shorter columns padded with nulls). Used to state the
aggregation claims row by row, independently of the column-wise
implementation. -/
def mkRows : List Cell → List Cell → List Cell → List Cell → List Cell → List Cell → List Row
  | _, [], _, _, _, _ => []
  | rg, y :: yt, ns, vs, ps, es =>
    { region := regionOf rg.head?, year := cellNum? y,
      nvpov := ns.head?.bind cellNum?, vpov := vs.head?.bind cellNum?,
      pov := ps.head?.bind cellNum?, epov := es.head?.bind cellNum? } ::
    mkRows rg.tail yt ns.tail vs.tail ps.tail es.tail

/-- The rows of a dataframe. -/
def rowsOf (df : Df) : List Row :=
  mkRows (getCol df "region") (getCol df "year") (getCol df "nvpov")
    (getCol df "vpov") (getCol df "pov") (getCol df "epov")

/-- Row-wise restatement of the aggregation contract (the spec's "elementwise
sum across all regions sharing that year, nulls contributing zero"), to be
compared with the implementation's `peru_total`. -/
def specRowSum (rows : List Row) (y : ℚ) (g : Row → Option ℚ) : ℚ :=
  ((rows.filter (fun r => r.year = some y)).map (fun r => (g r).getD 0)).sum

/-- The comparator's outputs for one scope and reference year: Goal B's target
and both gaps. `none` models float NaN propagating through the arithmetic. -/
structure GapResult where
  targetPov : Option ℚ
  gapA : Option ℚ
  gapB : Option ℚ
deriving DecidableEq

/-- Python `max(x, b)` on a possibly-NaN float: NaN (the first argument) is
returned unchanged, since no comparison against NaN succeeds. -/
def maxNaN (a : Option ℚ) (b : ℚ) : Option ℚ := a.map (fun x => max x b)

/-- Subtraction with NaN propagation. -/
def subNaN (a b : Option ℚ) : Option ℚ := a.bind (fun x => b.map (fun y => x - y))

/-- The COMPARADOR tab's gap computation: take the first row of the selected
scope matching the reference year (`.iloc[0]`); when no such row exists the
lookup raises and the computation fails (`none`) instead of producing gaps.
Otherwise `target_pov = pov * 0.5`, `gapA = max(epov - 0, 0)`,
`gapB = max(pov - target_pov, 0)`. -/
def comparador (rows : List Row) (refYear : ℚ) : Option GapResult :=
  match rows.filter (fun r => r.year = some refYear) with
  | [] => none
  | r :: _ =>
    let target_pov := r.pov.map (fun q => q * (1 / 2))
    some { targetPov := target_pov,
           gapA := maxNaN (subNaN r.epov (some 0)) 0,
           gapB := match subNaN r.pov target_pov with
                   | some d => some (max d 0)
                   | none => none }

/-- One full pipeline run as the DASHBOARD tab performs it on the uploaded
table: resolve columns, validate, aggregate the national total. -/
structure PipelineOut where
  ok : Bool
  msgs : List Msg
  canonical : Df
  total : List Row
deriving DecidableEq

/-- A cell's contribution when bad (non-numeric) cells are read directly as
zero: the spec-side description of the aggregator's treatment of coerced
cells. -/
def cellZero : Cell → ℚ
  | .num q => q
  | .text _ => 0
  | .null => 0

/-- Spec-side restatement of a per-year column sum over the RAW (uncoerced)
cells, counting each non-numeric cell as contributing 0; to be compared with
the sum the aggregator computes after validation. -/
def specSumBadZero (ys cs : List Cell) (y : ℚ) : ℚ :=
  (((ys.zip cs).filter (fun p => p.1 = Cell.num y)).map (fun p => cellZero p.2)).sum

/-- The table with all rows whose year cell is not numeric (null year after
coercion) deleted: the spec-side description of which rows the aggregator
may consult. -/
def dropNullYearDf (df : Df) : Df :=
  df.map (fun p =>
    (p.1,
      if p.1 = "year" then (getCol df "year").filter isNumCell
      else (((getCol df "year").zip p.2).filter (fun q => isNumCell q.1)).map (fun q => q.2)))

/-- A canonical table with a non-numeric cell in the `nvpov` column, used to
witness the value-coercion claim. -/
def c3df : Df :=
  [("region", [.text "Lima", .text "Lima"]),
   ("year",   [.num 2019, .num 2019]),
   ("nvpov",  [.num 1, .text "x"]),
   ("vpov",   [.num 2, .num 2]),
   ("pov",    [.num 3, .num 3]),
   ("epov",   [.num 4, .num 4])]

/-- A canonical table with a null year cell on a row whose value cells are
non-null, used to witness the null-year-exclusion claim. -/
def c10df : Df :=
  [("region", [.text "Lima", .text "Cusco"]),
   ("year",   [.num 2023, .null]),
   ("nvpov",  [.num 1, .num 7]),
   ("vpov",   [.num 2, .num 7]),
   ("pov",    [.num 3, .num 7]),
   ("epov",   [.num 4, .num 7])]

/-- A single Lima row for 2023, a one-row region scope for the comparator. -/
def limaRow2023 : Row :=
  { region := "Lima", year := some 2023, nvpov := some 90, vpov := some 40, pov := some 20, epov := some 5 }

/-- The DASHBOARD tab's run of the pipeline on the raw table. -/
def dashboardRun (raw : Df) : PipelineOut :=
  let df := match_columns raw
  let v := validate_dataframe df
  ⟨v.ok, v.msgs, v.df, peru_total v.df⟩

/-- The COMPARADOR tab's independent second run of the same pipeline on the
same raw table. -/
def comparadorRun (raw : Df) : PipelineOut :=
  let df2 := match_columns raw
  let v2 := validate_dataframe df2
  ⟨v2.ok, v2.msgs, v2.df, peru_total v2.df⟩

end PobrezaPipeline

/-! Concrete tables used by the scenario claims and witnesses. -/

namespace PobrezaPipeline

/-- The scenario table of the spec: rows (Lima,2019,100,50,30,10),
(Lima,2023,90,40,20,5), (Cusco,2023,60,30,25,8). -/
def c8raw : Df :=
  [("region", [.text "Lima", .text "Lima", .text "Cusco"]),
   ("year",   [.num 2019, .num 2023, .num 2023]),
   ("nvpov",  [.num 100, .num 90, .num 60]),
   ("vpov",   [.num 50, .num 40, .num 30]),
   ("pov",    [.num 30, .num 20, .num 25]),
   ("epov",   [.num 10, .num 5, .num 8])]

set_option maxRecDepth 8000 in
/-- C8: on the scenario rows (Lima,2019,100,50,30,10), (Lima,2023,90,40,20,5),
(Cusco,2023,60,30,25,8) with reference year 2023 and the national-aggregate
scope, the national total for 2023 has pov=45 and epov=13, Goal A's gap is 13,
and Goal B's target is 22.5 with gap 22.5. -/
theorem scenario_national_2023 :
    (∃ rec ∈ peru_total (validate_dataframe (match_columns c8raw)).df,
        rec.year = some 2023 ∧ rec.pov = some 45 ∧ rec.epov = some 13) ∧
    comparador (peru_total (validate_dataframe (match_columns c8raw)).df) 2023
      = some { targetPov := some (45 / 2), gapA := some 13, gapB := some (45 / 2) } := by
  constructor
  · with_unfolding_all decide
  · with_unfolding_all decide

/-- C9: the two tabs each run the full pipeline (column resolution,
validation, national-total aggregation) on the identical raw table; both runs
produce the identical canonical table and national-total output — in this
embedding every pipeline stage is a pure function of the raw table, so there
is no hidden mutable state across runs. -/
theorem pipeline_two_runs_identical (raw : Df) : dashboardRun raw = comparadorRun raw :=
  rfl

/-- C6 counterexample: with headers ["Region", "REGIÓN"] both raw columns
normalize to the synonym "region", yet the resolver maps the SECOND raw
column "REGIÓN", not the first-by-input-order "Region": the normalized-header
dictionary keeps the last column for each normalized name, refuting "the first
raw column discovered, determined by input column order ... wins". -/
theorem resolver_first_column_counterexample :
    normalize_str "Region" = "region" ∧ normalize_str "REGIÓN" = "region" ∧
    buildMapping ["Region", "REGIÓN"] = [("REGIÓN", "region")] := by
  refine ⟨by decide, by decide, by decide⟩

/-- C2: when at least one required canonical field is missing, validation
fails with exactly one missing-column message per missing field, in
required-field declaration order, and nothing else. -/
theorem validate_missing_columns (df0 : Df)
    (h : REQUIRED_COLS.filter (fun c => !hasCol df0 c) ≠ []) :
    (validate_dataframe df0).ok = false ∧
    (validate_dataframe df0).msgs
      = (REQUIRED_COLS.filter (fun c => !hasCol df0 c)).map Msg.missingCol := by
  have hne : (REQUIRED_COLS.filter (fun c => !hasCol df0 c)).isEmpty = false := by
    cases hh : (REQUIRED_COLS.filter (fun c => !hasCol df0 c)).isEmpty
    · rfl
    · exact absurd (List.isEmpty_iff.mp hh) h
  unfold validate_dataframe
  simp [hne]

/-- Witness for C2 at the empty table: all six required columns are missing
and exactly six messages are produced, in declaration order. -/
theorem validate_missing_columns_witness :
    REQUIRED_COLS.filter (fun c => !hasCol ([] : Df) c) ≠ [] ∧
    (validate_dataframe ([] : Df)).ok = false ∧
    (validate_dataframe ([] : Df)).msgs
      = [Msg.missingCol "region", Msg.missingCol "year", Msg.missingCol "nvpov",
         Msg.missingCol "vpov", Msg.missingCol "pov", Msg.missingCol "epov"] := by
  refine ⟨by decide, (validate_missing_columns [] (by decide)).1, ?_⟩
  rw [(validate_missing_columns [] (by decide)).2]
  decide

/-- C4: when no row of the selected scope carries the reference year, the
comparator fails (the `.iloc[0]` lookup has nothing to return) instead of
producing gap values; in particular it never reports a zero gap for either
goal for an absent reference year. -/
theorem comparador_missing_refYear (rows : List Row) (refYear : ℚ)
    (h : rows.filter (fun r => r.year = some refYear) = []) :
    comparador rows refYear = none ∧
    ∀ g : GapResult, comparador rows refYear ≠ some g := by
  have : comparador rows refYear = none := by
    unfold comparador
    rw [h]
  exact ⟨this, fun g hg => by rw [this] at hg; cases hg⟩

/-- Witness for C4: a scope holding only a 2023 row, queried at reference
year 2025, yields the failure condition, not a gap of 0. -/
theorem comparador_missing_refYear_witness :
    ([limaRow2023] : List Row).filter (fun r => r.year = some (2025 : ℚ)) = [] ∧
    comparador [limaRow2023] 2025 = none := by
  refine ⟨by with_unfolding_all decide, ?_⟩
  exact (comparador_missing_refYear _ 2025 (by with_unfolding_all decide)).1

end PobrezaPipeline

/-! Properties of the column resolver. -/

namespace PobrezaPipeline

/-- `getLast?` of a cons falls back to the head only when the tail is empty. -/
lemma getLast?_cons_or {α : Type} (a : α) (l : List α) :
    (a :: l).getLast? = l.getLast?.or (some a) := by
  induction l generalizing a with
  | nil => rfl
  | cons b t ih =>
    rw [List.getLast?_cons_cons, ih b]
    cases h : t.getLast? <;> simp [Option.or]

/-- Lookup in the dictionary accumulated by the `colsNorm` fold: the binding
of the last column whose normalized name is the key wins, with the
accumulator as fallback. -/
lemma lookup_foldl_colsNorm (cols : List String) :
    ∀ (acc : List (String × String)) (k : String),
      (((cols.foldl (fun d c => (normalize_str c, c) :: d) acc).find?
          (fun p => p.1 = k)).map (fun p => p.2))
        = ((cols.filter (fun c => normalize_str c = k)).getLast?).or
            ((acc.find? (fun p => p.1 = k)).map (fun p => p.2)) := by
  induction cols with
  | nil =>
    intro acc k
    simp
  | cons c ct ih =>
    intro acc k
    rw [List.foldl_cons, ih ((normalize_str c, c) :: acc) k, List.filter_cons]
    by_cases h : normalize_str c = k
    · rw [if_pos (by simpa using h), getLast?_cons_or,
        List.find?_cons_of_pos _ (by simpa using h)]
      cases hl : (ct.filter (fun c => normalize_str c = k)).getLast? <;>
        simp [Option.or, h]
    · rw [if_neg (by simpa using h), List.find?_cons_of_neg _ (by simpa using h)]

/-- The normalized-header dictionary lookup returns the LAST raw column, in
input order, whose normalized name equals the key. -/
lemma lookupNorm_eq_getLast (cols : List String) (k : String) :
    lookupNorm cols k = (cols.filter (fun c => normalize_str c = k)).getLast? := by
  have h := lookup_foldl_colsNorm cols [] k
  simpa [lookupNorm, colsNorm] using h

/-- C6 (amended): when several raw columns could satisfy the same canonical
field, synonym-declaration order picks the winning synonym and the search
stops there, but among raw columns whose normalized names coincide the LAST
raw column in input order wins (the normalized-header dictionary keeps the
latest binding), not the first. -/
theorem resolver_duplicate_header_resolution (cols : List String) (k : String) :
    lookupNorm cols k = (cols.filter (fun c => normalize_str c = k)).getLast? :=
  lookupNorm_eq_getLast cols k

/-- Every declared synonym, once normalized, is again a declared synonym of
the same field (all synonyms are normalization fixed points except "año",
whose normal form "ano" is also declared). -/
lemma syn_norm_closed : ∀ p ∈ COL_SYNONYMS, ∀ s ∈ p.2, normalize_str s ∈ p.2 := by
  decide

/-- The canonical field names of the synonym table are pairwise distinct. -/
lemma targets_nodup : (COL_SYNONYMS.map (fun p => p.1)).Nodup := by decide

/-- A column present in the header set is always found by the dictionary
lookup under its normalized name. -/
lemma lookupNorm_isSome {cols : List String} {c : String} (hc : c ∈ cols) :
    (lookupNorm cols (normalize_str c)).isSome := by
  rw [lookupNorm_eq_getLast, List.getLast?_isSome]
  exact List.ne_nil_of_mem (List.mem_filter.mpr ⟨hc, by simp⟩)

/-- If some synonym of the list is found among the normalized headers, the
synonym loop succeeds. -/
lemma findSyn_isSome {cols : List String} {syns : List String} {s : String}
    (hs : s ∈ syns) (h : (lookupNorm cols s).isSome) :
    (findSyn cols syns).isSome := by
  induction syns with
  | nil => cases hs
  | cons a t ih =>
    cases hl : lookupNorm cols a with
    | some c => simp [findSyn, hl]
    | none =>
      rcases List.mem_cons.mp hs with rfl | hmem
      · rw [hl] at h
        cases h
      · simpa [findSyn, hl] using ih hmem

/-- Membership in the resolver's mapping, characterized by the synonym
table. -/
lemma mem_buildMapping {cols : List String} {r t : String} :
    (r, t) ∈ buildMapping cols ↔
      ∃ syns, (t, syns) ∈ COL_SYNONYMS ∧ findSyn cols syns = some r := by
  unfold buildMapping
  rw [List.mem_filterMap]
  constructor
  · rintro ⟨p, hp, hf⟩
    rcases Option.map_eq_some'.mp hf with ⟨c, hfind, heq⟩
    have h1 : c = r := congrArg Prod.fst heq
    have h2 : p.1 = t := congrArg Prod.snd heq
    subst h1
    exact ⟨p.2, by rwa [← h2], hfind⟩
  · rintro ⟨syns, hmem, hfind⟩
    exact ⟨(t, syns), hmem, by simp [hfind]⟩

/-- C5: for every header set containing a declared synonym of a canonical
field (literally, or up to the case- and diacritic-insensitive
normalization), the resolver maps exactly one raw column to that canonical
name; and the headers "Año", "ANIO" and "ano" all resolve to `year`. -/
theorem resolver_synonym_resolution (cols : List String) (f : String) (syns : List String)
    (hf : (f, syns) ∈ COL_SYNONYMS)
    (hc : ∃ c ∈ cols, c ∈ syns ∨ normalize_str c ∈ syns) :
    (∃! r, (r, f) ∈ buildMapping cols) ∧
    buildMapping ["Año"] = [("Año", "year")] ∧
    buildMapping ["ANIO"] = [("ANIO", "year")] ∧
    buildMapping ["ano"] = [("ano", "year")] := by
  refine ⟨?_, by decide, by decide, by decide⟩
  obtain ⟨c, hcc, hcs⟩ := hc
  have hns : normalize_str c ∈ syns := by
    rcases hcs with hlit | hnorm
    · exact syn_norm_closed (f, syns) hf c hlit
    · exact hnorm
  have h1 : (findSyn cols syns).isSome := findSyn_isSome hns (lookupNorm_isSome hcc)
  obtain ⟨r, hr⟩ := Option.isSome_iff_exists.mp h1
  refine ⟨r, mem_buildMapping.mpr ⟨syns, hf, hr⟩, ?_⟩
  intro r' hr'
  obtain ⟨syns', hmem', hfind'⟩ := mem_buildMapping.mp hr'
  have hps : ((f, syns') : String × List String) = (f, syns) :=
    List.inj_on_of_nodup_map targets_nodup hmem' hf rfl
  have hss : syns' = syns := congrArg Prod.snd hps
  subst hss
  rw [hr] at hfind'
  exact (Option.some.inj hfind').symm

/-- Witness for C5 at the header set ["Año"] and the field `year`: "Año" is
a synonym up to normalization, and exactly one raw column is mapped. -/
theorem resolver_synonym_resolution_witness :
    (("year", ["anio", "ano", "año", "year", "periodo"]) ∈ COL_SYNONYMS) ∧
    (∃ c ∈ ["Año"], c ∈ ["anio", "ano", "año", "year", "periodo"] ∨
      normalize_str c ∈ ["anio", "ano", "año", "year", "periodo"]) ∧
    (∃! r, (r, "year") ∈ buildMapping ["Año"]) := by
  refine ⟨by decide, by decide, ?_⟩
  exact (resolver_synonym_resolution ["Año"] "year" ["anio", "ano", "año", "year", "periodo"]
    (by decide) (by decide)).1

end PobrezaPipeline

/-! Access lemmas for the column-wise dataframe operations. -/

namespace PobrezaPipeline

/-- Reading a column from a cons dataframe. -/
lemma getCol_cons (p : String × List Cell) (t : Df) (c : String) :
    getCol (p :: t) c = if p.1 = c then p.2 else getCol t c := by
  by_cases h : p.1 = c
  · rw [if_pos h]
    unfold getCol
    rw [List.find?_cons_of_pos _ (by simpa using h)]
    rfl
  · rw [if_neg h]
    unfold getCol
    rw [List.find?_cons_of_neg _ (by simpa using h)]

/-- Column presence on a cons dataframe. -/
lemma hasCol_cons (p : String × List Cell) (t : Df) (c : String) :
    hasCol (p :: t) c = (decide (p.1 = c) || hasCol t c) := by
  simp [hasCol]

/-- An absent column reads as the empty cell list. -/
lemma getCol_of_hasCol_eq_false {df : Df} {c : String} (h : hasCol df c = false) :
    getCol df c = [] := by
  induction df with
  | nil => rfl
  | cons p t ih =>
    rw [hasCol_cons, Bool.or_eq_false_iff] at h
    rw [getCol_cons, if_neg (by simpa using h.1)]
    exact ih h.2

/-- Reading through the in-place replacement branch of a column
assignment. -/
lemma getCol_map_replace (df : Df) (c : String) (v : List Cell) (c' : String) :
    getCol (df.map (fun p => if p.1 = c then (c, v) else p)) c'
      = if c' = c then (if hasCol df c then v else []) else getCol df c' := by
  induction df with
  | nil =>
    by_cases h : c' = c <;> simp [getCol, hasCol, h]
  | cons p t ih =>
    simp only [List.map_cons]
    by_cases h1 : p.1 = c <;> by_cases h2 : c' = c
    · subst h2
      simp [getCol_cons, hasCol_cons, h1]
    · have h3 : ¬ p.1 = c' := by
        rw [h1]
        exact fun hh => h2 hh.symm
      have h4 : ¬ c = c' := fun hh => h2 hh.symm
      simp [getCol_cons, hasCol_cons, h1, h2, h3, h4, ih]
    · subst h2
      simp [getCol_cons, hasCol_cons, h1, ih]
    · by_cases h3 : p.1 = c' <;> simp [getCol_cons, hasCol_cons, h1, h2, h3, ih]

/-- Reading through the appending branch of a column assignment. -/
lemma getCol_append_single (df : Df) (c : String) (v : List Cell) (c' : String)
    (h : hasCol df c = false) :
    getCol (df ++ [(c, v)]) c' = if c' = c then v else getCol df c' := by
  induction df with
  | nil =>
    by_cases h2 : c' = c
    · simp [getCol_cons, h2]
    · have h4 : ¬ c = c' := fun hh => h2 hh.symm
      simp [getCol_cons, getCol, h2, h4]
  | cons p t ih =>
    rw [hasCol_cons, Bool.or_eq_false_iff] at h
    have h1 : ¬ p.1 = c := by simpa using h.1
    rw [List.cons_append]
    by_cases h3 : p.1 = c'
    · have h2 : ¬ c' = c := fun hh => h1 (h3.trans hh)
      simp [getCol_cons, h3, h2]
    · simp [getCol_cons, h3, ih h.2]

/-- `getCol` after `setCol`: the assigned column reads back the assigned
cells, all others are untouched. -/
lemma getCol_setCol (df : Df) (c : String) (v : List Cell) (c' : String) :
    getCol (setCol df c v) c' = if c' = c then v else getCol df c' := by
  unfold setCol
  by_cases h : df.any (fun p => p.1 = c)
  · rw [if_pos h, getCol_map_replace]
    have hc : hasCol df c = true := h
    rw [hc]
    by_cases h2 : c' = c <;> simp [h2]
  · rw [if_neg h]
    have hf : hasCol df c = false := by
      unfold hasCol
      cases hh : df.any (fun p => p.1 = c) with
      | false => rfl
      | true => exact absurd hh h
    exact getCol_append_single df c v c' hf

/-- The count-column coercion leaves any other column untouched. -/
lemma getCol_coerceNumCols_other (df : Df) (c : String)
    (h1 : c ≠ "nvpov") (h2 : c ≠ "vpov") (h3 : c ≠ "pov") (h4 : c ≠ "epov") :
    getCol (coerceNumCols df) c = getCol df c := by
  unfold coerceNumCols NUM_COLS
  simp only [List.foldl_cons, List.foldl_nil]
  rw [getCol_setCol, if_neg h4, getCol_setCol, if_neg h3, getCol_setCol, if_neg h2,
    getCol_setCol, if_neg h1]

/-- The count-column coercion maps `to_numeric` over each count column. -/
lemma getCol_coerceNumCols_num (df : Df) (c : String) (hc : c ∈ NUM_COLS) :
    getCol (coerceNumCols df) c = (getCol df c).map toNumeric := by
  fin_cases hc <;>
    (unfold coerceNumCols NUM_COLS
     simp only [List.foldl_cons, List.foldl_nil]
     simp [getCol_setCol])

/-- The region coercion leaves any other column untouched. -/
lemma getCol_coerceRegion_other (df : Df) (c : String) (h : c ≠ "region") :
    getCol (coerceRegion df) c = getCol df c := by
  unfold coerceRegion
  rw [getCol_setCol, if_neg h]

end PobrezaPipeline

/-! The validator's coercion and coverage behaviour. -/

namespace PobrezaPipeline

/-- A successful year coercion returns exactly the cell-wise coerced
column. -/
lemma coerceYearCol_eq_some {cs ys : List Cell} (h : coerceYearCol cs = some ys) :
    ys = cs.map toNumeric := by
  simp only [coerceYearCol] at h
  split at h
  · exact (Option.some.inj h).symm
  · cases h

/-- Cell-wise coercion does not change which numeric values a column
holds. -/
lemma filterMap_cellNum_map_toNumeric (cs : List Cell) :
    (cs.map toNumeric).filterMap cellNum? = cs.filterMap cellNum? := by
  induction cs with
  | nil => rfl
  | cons x t ih => cases x <;> simp [toNumeric, cellNum?, ih]

/-- Every message of the coverage check is the coverage warning. -/
lemma mem_coverageMsgs {L : List ℚ} {m : Msg} (hm : m ∈ coverageMsgs L) :
    m = Msg.coverage := by
  unfold coverageMsgs at hm
  split at hm
  · split at hm
    · simpa using hm
    · cases hm
  · simpa using hm

/-- The year column as read back from the fully coerced dataframe. -/
lemma getCol_validated_year (df0 : Df) (ys : List Cell) :
    getCol (coerceRegion (coerceNumCols (setCol df0 "year" ys))) "year" = ys := by
  rw [getCol_coerceRegion_other _ _ (by decide),
    getCol_coerceNumCols_other _ _ (by decide) (by decide) (by decide) (by decide),
    getCol_setCol, if_pos rfl]

/-- With all required columns present and a coercible year column, the
validator's result in closed form. -/
lemma validate_all_present_some (df0 : Df) (ys : List Cell)
    (hall : REQUIRED_COLS.filter (fun c => !hasCol df0 c) = [])
    (hy : coerceYearCol (getCol df0 "year") = some ys) :
    validate_dataframe df0 =
      ⟨true, coverageMsgs (yearsSorted ys),
       coerceRegion (coerceNumCols (setCol df0 "year" ys))⟩ := by
  unfold validate_dataframe
  rw [hall, hy]
  simp [getCol_validated_year]

/-- With all required columns present but a year column whose coercion fails
at column level, the validator's result in closed form. -/
lemma validate_all_present_none (df0 : Df)
    (hall : REQUIRED_COLS.filter (fun c => !hasCol df0 c) = [])
    (hy : coerceYearCol (getCol df0 "year") = none) :
    validate_dataframe df0 =
      ⟨false, Msg.yearNotNumeric :: coverageMsgs (yearsSorted (getCol df0 "year")),
       coerceRegion (coerceNumCols df0)⟩ := by
  unfold validate_dataframe
  rw [hall, hy]
  have hyr : getCol (coerceRegion (coerceNumCols df0)) "year" = getCol df0 "year" := by
    rw [getCol_coerceRegion_other _ _ (by decide),
      getCol_coerceNumCols_other _ _ (by decide) (by decide) (by decide) (by decide)]
  simp [hyr]

/-- Elements of a `(≤)`-sorted list are bounded by its last element. -/
lemma le_getLast_of_sorted :
    ∀ (L : List ℚ), L.Sorted (fun a b => a ≤ b) → ∀ hi : ℚ, L.getLast? = some hi →
      ∀ y ∈ L, y ≤ hi := by
  intro L
  induction L with
  | nil =>
    intro _ hi hlast
    cases hlast
  | cons a t ih =>
    intro hs hi hlast y hy
    rcases List.sorted_cons.mp hs with ⟨ha, hst⟩
    cases t with
    | nil =>
      have h1 : a = hi := by simpa using hlast
      have h2 : y = a := by simpa using hy
      exact le_of_eq (h2.trans h1)
    | cons b t2 =>
      rw [List.getLast?_cons_cons] at hlast
      rcases List.mem_cons.mp hy with rfl | hy2
      · have hmem : hi ∈ b :: t2 := by
          obtain ⟨hne, hx⟩ :=
            List.mem_getLast?_eq_getLast (l := b :: t2) (x := hi) (by simp [hlast])
          rw [hx]
          exact List.getLast_mem hne
        exact ha hi hmem
      · exact ih hst hi hlast y hy2

/-- Membership of the coverage warning, characterized over the non-null
years of a year column: warn exactly when there are none, or the minimum
exceeds 2019 (equivalently all years do), or the maximum is below 2023
(equivalently all years are). -/
lemma coverage_iff (cs : List Cell) :
    Msg.coverage ∈ coverageMsgs (yearsSorted cs) ↔
      (cs.filterMap cellNum? = [] ∨ (∀ y ∈ cs.filterMap cellNum?, 2019 < y)
        ∨ (∀ y ∈ cs.filterMap cellNum?, y < 2023)) := by
  have hperm : (yearsSorted cs).Perm (cs.filterMap cellNum?).dedup :=
    List.perm_insertionSort _ _
  have hmem : ∀ a : ℚ, a ∈ yearsSorted cs ↔ a ∈ cs.filterMap cellNum? := by
    intro a
    rw [hperm.mem_iff, List.mem_dedup]
  have hsorted : (yearsSorted cs).Sorted (fun a b => a ≤ b) :=
    List.sorted_insertionSort _ _
  cases hL : yearsSorted cs with
  | nil =>
    have hY : cs.filterMap cellNum? = [] := by
      rw [← List.dedup_eq_nil]
      exact ((hL ▸ hperm).symm).eq_nil
    simp [coverageMsgs, hY]
  | cons lo t =>
    rw [hL] at hmem hsorted
    have hY : cs.filterMap cellNum? ≠ [] := by
      intro hnil
      have hh := (hmem lo).mp (by simp)
      rw [hnil] at hh
      cases hh
    obtain ⟨hi, hhi⟩ : ∃ hi : ℚ, (lo :: t).getLast? = some hi := by
      cases hlast : (lo :: t).getLast? with
      | none =>
        rw [List.getLast?_eq_none_iff] at hlast
        cases hlast
      | some x => exact ⟨x, rfl⟩
    rcases List.sorted_cons.mp hsorted with ⟨hlo, _⟩
    have hhiY : hi ∈ cs.filterMap cellNum? := by
      rw [← hmem]
      obtain ⟨hne, hx⟩ :=
        List.mem_getLast?_eq_getLast (l := lo :: t) (x := hi) (by simp [hhi])
      rw [hx]
      exact List.getLast_mem hne
    have hloY : lo ∈ cs.filterMap cellNum? := (hmem lo).mp (by simp)
    have hcov : Msg.coverage ∈ coverageMsgs (lo :: t) ↔ ((2019 : ℚ) < lo ∨ hi < 2023) := by
      by_cases hc : (2019 : ℚ) < lo ∨ hi < 2023 <;> simp [coverageMsgs, hhi, hc]
    rw [hcov]
    constructor
    · rintro (h1 | h2)
      · refine Or.inr (Or.inl (fun y hy => ?_))
        rcases List.mem_cons.mp ((hmem y).mpr hy) with rfl | hyt
        · exact h1
        · exact lt_of_lt_of_le h1 (hlo y hyt)
      · refine Or.inr (Or.inr (fun y hy => ?_))
        exact lt_of_le_of_lt
          (le_getLast_of_sorted _ hsorted hi hhi y ((hmem y).mpr hy)) h2
    · rintro (h0 | h1 | h2)
      · exact absurd h0 hY
      · exact Or.inl (h1 lo hloY)
      · exact Or.inr (h2 hi hhiY)

/-- C7: with all required columns present, validation appends the coverage
warning iff the distinct set of non-null years is empty, or its minimum
exceeds 2019, or its maximum is below 2023 (stated equivalently: all years
exceed 2019 / all are below 2023); the warning never changes `isValid`,
which equals exactly the success of the year-column coercion. -/
theorem validate_coverage_warning (df0 : Df)
    (hall : REQUIRED_COLS.filter (fun c => !hasCol df0 c) = []) :
    (Msg.coverage ∈ (validate_dataframe df0).msgs ↔
      ((getCol df0 "year").filterMap cellNum? = []
        ∨ (∀ y ∈ (getCol df0 "year").filterMap cellNum?, 2019 < y)
        ∨ (∀ y ∈ (getCol df0 "year").filterMap cellNum?, y < 2023)))
    ∧ (validate_dataframe df0).ok = (coerceYearCol (getCol df0 "year")).isSome := by
  cases hy : coerceYearCol (getCol df0 "year") with
  | some ys =>
    rw [validate_all_present_some df0 ys hall hy]
    have hyears : yearsSorted ys = yearsSorted (getCol df0 "year") := by
      unfold yearsSorted
      rw [coerceYearCol_eq_some hy, filterMap_cellNum_map_toNumeric]
    constructor
    · rw [show (VResult.mk true (coverageMsgs (yearsSorted ys))
          (coerceRegion (coerceNumCols (setCol df0 "year" ys)))).msgs
          = coverageMsgs (yearsSorted ys) from rfl, hyears]
      exact coverage_iff _
    · rfl
  | none =>
    rw [validate_all_present_none df0 hall hy]
    constructor
    · rw [show (VResult.mk false
          (Msg.yearNotNumeric :: coverageMsgs (yearsSorted (getCol df0 "year")))
          (coerceRegion (coerceNumCols df0))).msgs
          = Msg.yearNotNumeric :: coverageMsgs (yearsSorted (getCol df0 "year")) from rfl]
      rw [List.mem_cons]
      have hne : ¬ (Msg.coverage = Msg.yearNotNumeric) := by decide
      rw [or_iff_right hne]
      exact coverage_iff _
    · rfl

/-- Witness for C7 at the scenario table (years 2019 and 2023): the coverage
condition fails, and validity equals the year-coercion success. -/
theorem validate_coverage_warning_witness :
    REQUIRED_COLS.filter (fun c => !hasCol c8raw c) = [] ∧
    (validate_dataframe c8raw).ok = (coerceYearCol (getCol c8raw "year")).isSome := by
  exact ⟨by decide, (validate_coverage_warning c8raw (by decide)).2⟩

end PobrezaPipeline

namespace PobrezaPipeline

/-- The predicate "the year cell is `num y`" is invariant under cell-wise
coercion. -/
lemma toNumeric_eq_num_iff (x : Cell) (y : ℚ) :
    (toNumeric x = Cell.num y) ↔ (x = Cell.num y) := by
  cases x <;> simp [toNumeric]

/-- A coerced cell's null-as-zero value equals the raw cell's bad-as-zero
value. -/
lemma getD_cellNum_toNumeric (x : Cell) :
    (cellNum? (toNumeric x)).getD 0 = cellZero x := by
  cases x <;> rfl

/-- The aggregator's per-year sum over fully coerced columns equals the
bad-cells-count-as-zero sum over the raw columns. -/
lemma zipSum_map_toNumeric (ys cs : List Cell) (y : ℚ) :
    zipSum (ys.map toNumeric) (cs.map toNumeric) y = specSumBadZero ys cs y := by
  unfold zipSum specSumBadZero
  rw [List.zip_map, List.filter_map, List.map_map]
  have hfil :
      List.filter ((fun p => decide (p.1 = Cell.num y)) ∘ Prod.map toNumeric toNumeric)
        (ys.zip cs)
      = List.filter (fun p => decide (p.1 = Cell.num y)) (ys.zip cs) := by
    apply List.filter_congr
    intro p _
    simp [Prod.map, toNumeric_eq_num_iff]
  rw [hfil]
  congr 1
  apply List.map_congr_left
  intro p _
  simp [Prod.map, getD_cellNum_toNumeric]

/-- C3: on a table with all six required columns and a coercible year column,
non-numeric cells in the count columns do not make validation fail:
`validate` returns isValid=true, flags no structural message for any field,
the bad cells become nulls, and the aggregator counts each bad cell as
contributing 0 to its year's sum. -/
theorem validate_coercible_values (df0 : Df)
    (hall : REQUIRED_COLS.filter (fun c => !hasCol df0 c) = [])
    (hyear : (coerceYearCol (getCol df0 "year")).isSome = true) :
    (validate_dataframe df0).ok = true
    ∧ (∀ c : String, Msg.colNotNumeric c ∉ (validate_dataframe df0).msgs)
    ∧ Msg.yearNotNumeric ∉ (validate_dataframe df0).msgs
    ∧ (∀ c ∈ NUM_COLS, getCol (validate_dataframe df0).df c = (getCol df0 c).map toNumeric)
    ∧ (∀ c ∈ NUM_COLS, ∀ y : ℚ,
        sumYear (validate_dataframe df0).df c y
          = specSumBadZero (getCol df0 "year") (getCol df0 c) y) := by
  obtain ⟨ys, hy⟩ := Option.isSome_iff_exists.mp hyear
  have hys := coerceYearCol_eq_some hy
  rw [validate_all_present_some df0 ys hall hy]
  dsimp only
  have hget : ∀ c ∈ NUM_COLS,
      getCol (coerceRegion (coerceNumCols (setCol df0 "year" ys))) c
        = (getCol df0 c).map toNumeric := by
    intro c hc
    have hr : c ≠ "region" := by fin_cases hc <;> decide
    have hyy : c ≠ "year" := by fin_cases hc <;> decide
    rw [getCol_coerceRegion_other _ _ hr, getCol_coerceNumCols_num _ _ hc,
      getCol_setCol, if_neg hyy]
  refine ⟨rfl, ?_, ?_, hget, ?_⟩
  · intro c hmem
    cases mem_coverageMsgs hmem
  · intro hmem
    cases mem_coverageMsgs hmem
  · intro c hc y
    unfold sumYear
    rw [getCol_validated_year, hget c hc, hys, zipSum_map_toNumeric]

set_option maxRecDepth 8000 in
/-- Witness for C3 at `c3df` (text cell in `nvpov`): validation passes, the
bad cell becomes null, and the 2019 sum of `nvpov` counts it as 0. -/
theorem validate_coercible_values_witness :
    REQUIRED_COLS.filter (fun c => !hasCol c3df c) = [] ∧
    (coerceYearCol (getCol c3df "year")).isSome = true ∧
    getCol (validate_dataframe c3df).df "nvpov" = [Cell.num 1, Cell.null] ∧
    sumYear (validate_dataframe c3df).df "nvpov" 2019 = 1 := by
  refine ⟨by decide, by with_unfolding_all decide, ?_, ?_⟩
  · rw [(validate_coercible_values c3df (by decide)
      (by with_unfolding_all decide)).2.2.2.1 "nvpov" (by decide)]
    with_unfolding_all decide
  · rw [(validate_coercible_values c3df (by decide)
      (by with_unfolding_all decide)).2.2.2.2 "nvpov" (by decide) 2019]
    with_unfolding_all decide

end PobrezaPipeline

/-! The national-total aggregation, checked row by row. -/

namespace PobrezaPipeline

/-- A cell holds the numeric value `y` exactly when it is `num y`. -/
lemma cellNum_eq_some_iff (x : Cell) (y : ℚ) :
    cellNum? x = some y ↔ x = Cell.num y := by
  cases x <;> simp [cellNum?]

/-- The year fields of the row-wise view are the year cells' numeric
values. -/
lemma mkRows_map_year (rg ys ns vs ps es : List Cell) :
    (mkRows rg ys ns vs ps es).map Row.year = ys.map cellNum? := by
  induction ys generalizing rg ns vs ps es with
  | nil => rfl
  | cons y yt ih => simp [mkRows, ih]

/-- Row-wise `nvpov` sums agree with the aggregator's zip-wise sums. -/
lemma specRowSum_mkRows_nvpov (rg ys ns vs ps es : List Cell) (y : ℚ)
    (h : ns.length = ys.length) :
    specRowSum (mkRows rg ys ns vs ps es) y Row.nvpov = zipSum ys ns y := by
  induction ys generalizing rg ns vs ps es with
  | nil => rfl
  | cons yc yt ih =>
    cases ns with
    | nil => simp at h
    | cons nc nt =>
      have ht : nt.length = yt.length := by simpa using h
      have ih2 := ih rg.tail nt vs.tail ps.tail es.tail ht
      simp only [specRowSum, zipSum] at ih2
      by_cases hyc : yc = Cell.num y <;>
        simp [mkRows, specRowSum, zipSum, List.filter_cons, cellNum_eq_some_iff, hyc, ih2]

/-- Row-wise `vpov` sums agree with the aggregator's zip-wise sums. -/
lemma specRowSum_mkRows_vpov (rg ys ns vs ps es : List Cell) (y : ℚ)
    (h : vs.length = ys.length) :
    specRowSum (mkRows rg ys ns vs ps es) y Row.vpov = zipSum ys vs y := by
  induction ys generalizing rg ns vs ps es with
  | nil => rfl
  | cons yc yt ih =>
    cases vs with
    | nil => simp at h
    | cons vc vt =>
      have ht : vt.length = yt.length := by simpa using h
      have ih2 := ih rg.tail ns.tail vt ps.tail es.tail ht
      simp only [specRowSum, zipSum] at ih2
      by_cases hyc : yc = Cell.num y <;>
        simp [mkRows, specRowSum, zipSum, List.filter_cons, cellNum_eq_some_iff, hyc, ih2]

/-- Row-wise `pov` sums agree with the aggregator's zip-wise sums. -/
lemma specRowSum_mkRows_pov (rg ys ns vs ps es : List Cell) (y : ℚ)
    (h : ps.length = ys.length) :
    specRowSum (mkRows rg ys ns vs ps es) y Row.pov = zipSum ys ps y := by
  induction ys generalizing rg ns vs ps es with
  | nil => rfl
  | cons yc yt ih =>
    cases ps with
    | nil => simp at h
    | cons pc pt =>
      have ht : pt.length = yt.length := by simpa using h
      have ih2 := ih rg.tail ns.tail vs.tail pt es.tail ht
      simp only [specRowSum, zipSum] at ih2
      by_cases hyc : yc = Cell.num y <;>
        simp [mkRows, specRowSum, zipSum, List.filter_cons, cellNum_eq_some_iff, hyc, ih2]

/-- Row-wise `epov` sums agree with the aggregator's zip-wise sums. -/
lemma specRowSum_mkRows_epov (rg ys ns vs ps es : List Cell) (y : ℚ)
    (h : es.length = ys.length) :
    specRowSum (mkRows rg ys ns vs ps es) y Row.epov = zipSum ys es y := by
  induction ys generalizing rg ns vs ps es with
  | nil => rfl
  | cons yc yt ih =>
    cases es with
    | nil => simp at h
    | cons ec et =>
      have ht : et.length = yt.length := by simpa using h
      have ih2 := ih rg.tail ns.tail vs.tail ps.tail et ht
      simp only [specRowSum, zipSum] at ih2
      by_cases hyc : yc = Cell.num y <;>
        simp [mkRows, specRowSum, zipSum, List.filter_cons, cellNum_eq_some_iff, hyc, ih2]

end PobrezaPipeline

namespace PobrezaPipeline

/-- C1: the national total has one record per distinct non-null year of the
table, in strictly ascending year order, labelled with the synthetic region;
each record's nvpov/vpov/pov/epov is the row-wise sum of that field over all
input rows sharing the year, null cells contributing 0 (a row with a null
cell still contributes its non-null fields). -/
theorem peru_total_spec (df : Df)
    (hn : (getCol df "nvpov").length = (getCol df "year").length)
    (hv : (getCol df "vpov").length = (getCol df "year").length)
    (hp : (getCol df "pov").length = (getCol df "year").length)
    (he : (getCol df "epov").length = (getCol df "year").length) :
    List.Sorted (fun a b : ℚ => a < b) ((peru_total df).filterMap Row.year)
    ∧ (∀ rec ∈ peru_total df, ∃ q : ℚ, rec.year = some q)
    ∧ (∀ y : ℚ, (∃ rec ∈ peru_total df, rec.year = some y) ↔
        (∃ r ∈ rowsOf df, r.year = some y))
    ∧ (∀ rec ∈ peru_total df, rec.region = "Perú (suma nacional)" ∧
        ∀ y : ℚ, rec.year = some y →
          rec.nvpov = some (specRowSum (rowsOf df) y Row.nvpov)
          ∧ rec.vpov = some (specRowSum (rowsOf df) y Row.vpov)
          ∧ rec.pov = some (specRowSum (rowsOf df) y Row.pov)
          ∧ rec.epov = some (specRowSum (rowsOf df) y Row.epov)) := by
  refine ⟨?_, ?_, ?_, ?_⟩
  · have h1 : (peru_total df).filterMap Row.year = yearsSorted (getCol df "year") := by
      unfold peru_total
      rw [List.filterMap_map]
      have hcomp : (Row.year ∘ fun y : ℚ =>
          ({ region := "Perú (suma nacional)", year := some y,
             nvpov := some (sumYear df "nvpov" y), vpov := some (sumYear df "vpov" y),
             pov := some (sumYear df "pov" y), epov := some (sumYear df "epov" y) } : Row))
          = fun y => some y := rfl
      rw [hcomp]
      simp
    rw [h1]
    have hnodup : (yearsSorted (getCol df "year")).Nodup :=
      ((List.perm_insertionSort _ _).nodup_iff).mpr (List.nodup_dedup _)
    have hsorted : (yearsSorted (getCol df "year")).Sorted (fun a b : ℚ => a ≤ b) :=
      List.sorted_insertionSort _ _
    exact (List.Pairwise.and hsorted hnodup).imp (fun hab => lt_of_le_of_ne hab.1 hab.2)
  · intro rec hrec
    simp only [peru_total] at hrec
    obtain ⟨y0, _, rfl⟩ := List.mem_map.mp hrec
    exact ⟨y0, rfl⟩
  · intro y
    unfold peru_total rowsOf
    constructor
    · rintro ⟨rec, hrec, hyear⟩
      obtain ⟨y0, hy0, rfl⟩ := List.mem_map.mp hrec
      have hyy : y0 = y := by simpa using hyear
      subst hyy
      have hY : Cell.num y0 ∈ getCol df "year" := by
        have hmem := ((List.perm_insertionSort _ _).mem_iff).mp hy0
        rw [List.mem_dedup, List.mem_filterMap] at hmem
        obtain ⟨c, hc, hcy⟩ := hmem
        rwa [(cellNum_eq_some_iff c y0).mp hcy] at hc
      have hmy : some y0 ∈ (mkRows (getCol df "region") (getCol df "year")
          (getCol df "nvpov") (getCol df "vpov") (getCol df "pov")
          (getCol df "epov")).map Row.year := by
        rw [mkRows_map_year, List.mem_map]
        exact ⟨Cell.num y0, hY, rfl⟩
      obtain ⟨r, hr, hry⟩ := List.mem_map.mp hmy
      exact ⟨r, hr, hry⟩
    · rintro ⟨r, hr, hry⟩
      have h1 : some y ∈ (getCol df "year").map cellNum? := by
        rw [← mkRows_map_year (getCol df "region") (getCol df "year")
          (getCol df "nvpov") (getCol df "vpov") (getCol df "pov") (getCol df "epov")]
        exact List.mem_map.mpr ⟨r, hr, hry⟩
      obtain ⟨c, hc, hcy⟩ := List.mem_map.mp h1
      have hcy2 : c = Cell.num y := (cellNum_eq_some_iff c y).mp hcy
      subst hcy2
      have hyy : y ∈ yearsSorted (getCol df "year") :=
        ((List.perm_insertionSort _ _).mem_iff).mpr
          (List.mem_dedup.mpr (List.mem_filterMap.mpr ⟨Cell.num y, hc, rfl⟩))
      exact ⟨_, List.mem_map.mpr ⟨y, hyy, rfl⟩, rfl⟩
  · intro rec hrec
    simp only [peru_total] at hrec
    obtain ⟨y0, hy0, rfl⟩ := List.mem_map.mp hrec
    refine ⟨rfl, ?_⟩
    intro y hyy
    have hy : y0 = y := by simpa using hyy
    subst hy
    unfold rowsOf
    refine ⟨?_, ?_, ?_, ?_⟩
    · rw [specRowSum_mkRows_nvpov _ _ _ _ _ _ _ hn]
      rfl
    · rw [specRowSum_mkRows_vpov _ _ _ _ _ _ _ hv]
      rfl
    · rw [specRowSum_mkRows_pov _ _ _ _ _ _ _ hp]
      rfl
    · rw [specRowSum_mkRows_epov _ _ _ _ _ _ _ he]
      rfl

/-- Witness for C1 at the scenario table: the column lengths agree and the
output years are strictly ascending. -/
theorem peru_total_spec_witness :
    (getCol c8raw "nvpov").length = (getCol c8raw "year").length ∧
    (getCol c8raw "vpov").length = (getCol c8raw "year").length ∧
    (getCol c8raw "pov").length = (getCol c8raw "year").length ∧
    (getCol c8raw "epov").length = (getCol c8raw "year").length ∧
    List.Sorted (fun a b : ℚ => a < b) ((peru_total c8raw).filterMap Row.year) := by
  refine ⟨by decide, by decide, by decide, by decide, ?_⟩
  exact (peru_total_spec c8raw (by decide) (by decide) (by decide) (by decide)).1

end PobrezaPipeline

namespace PobrezaPipeline

/-- Filtering out non-numeric cells does not change a column's numeric
values. -/
lemma filterMap_cellNum_filter_isNum (cs : List Cell) :
    (cs.filter isNumCell).filterMap cellNum? = cs.filterMap cellNum? := by
  induction cs with
  | nil => rfl
  | cons x t ih => cases x <;> simp [isNumCell, cellNum?, ih]

/-- Zipping the numeric-year cells against the correspondingly filtered value
cells recovers the filtered zip of the full columns. -/
lemma zip_filter_eq (ys cs : List Cell) (h : cs.length = ys.length) :
    (ys.filter isNumCell).zip
        (((ys.zip cs).filter (fun q => isNumCell q.1)).map (fun q => q.2))
      = (ys.zip cs).filter (fun q => isNumCell q.1) := by
  induction ys generalizing cs with
  | nil => rfl
  | cons yc yt ih =>
    cases cs with
    | nil => simp at h
    | cons cc ct =>
      have ht : ct.length = yt.length := by simpa using h
      rw [List.zip_cons_cons, List.filter_cons, List.filter_cons]
      by_cases hnum : isNumCell yc
      · rw [if_pos (by simpa using hnum), if_pos (by simpa using hnum), List.map_cons,
          List.zip_cons_cons, ih ct ht]
      · rw [if_neg (by simpa using hnum), if_neg (by simpa using hnum), ih ct ht]

/-- Dropping the non-numeric-year rows does not change a per-year sum: rows
with a null year never contribute. -/
lemma zipSum_dropNull (ys cs : List Cell) (y : ℚ) (h : cs.length = ys.length) :
    zipSum (ys.filter isNumCell)
      (((ys.zip cs).filter (fun q => isNumCell q.1)).map (fun q => q.2)) y
      = zipSum ys cs y := by
  unfold zipSum
  rw [zip_filter_eq ys cs h, List.filter_filter]
  have hfil : List.filter (fun a => decide (a.1 = Cell.num y) && isNumCell a.1) (ys.zip cs)
      = List.filter (fun a => decide (a.1 = Cell.num y)) (ys.zip cs) := by
    apply List.filter_congr
    intro a _
    by_cases ha : a.1 = Cell.num y
    · simp [ha, isNumCell, cellNum?]
    · simp [ha]
  rw [hfil]

/-- Reading a column from a name-preserving transformation of the table. -/
lemma getCol_map_entry (df : Df) (G : String → List Cell → List Cell) (c : String) :
    getCol (df.map (fun p => (p.1, G p.1 p.2))) c
      = if hasCol df c then G c (getCol df c) else [] := by
  induction df with
  | nil => simp [getCol, hasCol]
  | cons p t ih =>
    simp only [List.map_cons]
    by_cases h : p.1 = c
    · simp [getCol_cons, hasCol_cons, h]
    · simp [getCol_cons, hasCol_cons, h, ih]

/-- The columns of the null-year-dropped table. -/
lemma getCol_dropNullYearDf (df : Df) (c : String) :
    getCol (dropNullYearDf df) c
      = if hasCol df c then
          (if c = "year" then (getCol df "year").filter isNumCell
           else (((getCol df "year").zip (getCol df c)).filter (fun q => isNumCell q.1)).map
                  (fun q => q.2))
        else [] := by
  have h := getCol_map_entry df (fun n cs =>
    if n = "year" then (getCol df "year").filter isNumCell
    else (((getCol df "year").zip cs).filter (fun q : Cell × Cell => isNumCell q.1)).map
      (fun q : Cell × Cell => q.2)) c
  exact h

/-- Per-year sums are unchanged by dropping the null-year rows. -/
lemma sumYear_dropNull (df : Df) (c : String) (y : ℚ)
    (hY : hasCol df "year" = true) (hc2 : ¬ c = "year")
    (hlen : (getCol df c).length = (getCol df "year").length) :
    sumYear (dropNullYearDf df) c y = sumYear df c y := by
  unfold sumYear
  have hdy : getCol (dropNullYearDf df) "year" = (getCol df "year").filter isNumCell := by
    rw [getCol_dropNullYearDf, if_pos hY, if_pos rfl]
  cases hcb : hasCol df c with
  | true =>
    have hdc : getCol (dropNullYearDf df) c
        = (((getCol df "year").zip (getCol df c)).filter (fun q => isNumCell q.1)).map
            (fun q => q.2) := by
      rw [getCol_dropNullYearDf, if_pos hcb, if_neg hc2]
    rw [hdy, hdc, zipSum_dropNull _ _ _ hlen]
  | false =>
    have h0 : getCol df c = [] := getCol_of_hasCol_eq_false hcb
    have h1 : getCol (dropNullYearDf df) c = [] := by
      rw [getCol_dropNullYearDf, hcb]
      rfl
    rw [h0, h1]
    simp [zipSum]

/-- C10: rows whose year cell is null are excluded entirely from the
national-total aggregation: no output record carries a null year, and
deleting all null-year rows (even ones whose value cells are non-null)
leaves the aggregation output unchanged. -/
theorem peru_total_null_year (df : Df)
    (hn : (getCol df "nvpov").length = (getCol df "year").length)
    (hv : (getCol df "vpov").length = (getCol df "year").length)
    (hp : (getCol df "pov").length = (getCol df "year").length)
    (he : (getCol df "epov").length = (getCol df "year").length) :
    (∀ rec ∈ peru_total df, ∃ q : ℚ, rec.year = some q)
    ∧ peru_total (dropNullYearDf df) = peru_total df := by
  constructor
  · intro rec hrec
    simp only [peru_total] at hrec
    obtain ⟨y0, _, rfl⟩ := List.mem_map.mp hrec
    exact ⟨y0, rfl⟩
  · cases hY : hasCol df "year" with
    | false =>
      have h0 : getCol df "year" = [] := getCol_of_hasCol_eq_false hY
      have h1 : getCol (dropNullYearDf df) "year" = [] := by
        rw [getCol_dropNullYearDf, hY]
        rfl
      unfold peru_total
      rw [h0, h1]
      rfl
    | true =>
      have hdy : getCol (dropNullYearDf df) "year"
          = (getCol df "year").filter isNumCell := by
        rw [getCol_dropNullYearDf, if_pos hY, if_pos rfl]
      have hyears : yearsSorted (getCol (dropNullYearDf df) "year")
          = yearsSorted (getCol df "year") := by
        rw [hdy]
        unfold yearsSorted
        rw [filterMap_cellNum_filter_isNum]
      unfold peru_total
      rw [hyears]
      apply List.map_congr_left
      intro y _
      rw [sumYear_dropNull df "nvpov" y hY (by decide) hn,
        sumYear_dropNull df "vpov" y hY (by decide) hv,
        sumYear_dropNull df "pov" y hY (by decide) hp,
        sumYear_dropNull df "epov" y hY (by decide) he]

set_option maxRecDepth 8000 in
/-- Witness for C10 at `c10df` (a null-year row with non-null values): the
lengths agree and deleting the null-year row leaves the national total
unchanged. -/
theorem peru_total_null_year_witness :
    (getCol c10df "nvpov").length = (getCol c10df "year").length ∧
    (getCol c10df "vpov").length = (getCol c10df "year").length ∧
    (getCol c10df "pov").length = (getCol c10df "year").length ∧
    (getCol c10df "epov").length = (getCol c10df "year").length ∧
    peru_total (dropNullYearDf c10df) = peru_total c10df := by
  refine ⟨by decide, by decide, by decide, by decide, ?_⟩
  exact (peru_total_null_year c10df (by decide) (by decide) (by decide) (by decide)).2

end PobrezaPipeline
